import Mathlib

/-!
Shallow embedding of the Monte Carlo quote-risk simulation in `src/app.py`.

Real numbers are modelled as rationals.  The numpy global random source is
modelled as a stream `z : ℕ → ℚ` of standard-normal variates: a call
`np.random.normal(mean, std, n)` starting at stream offset `start` returns the
affine transforms `mean + std * z (start + i)` for `i < n` (numpy's normal
draw is exactly `loc + scale * standardNormal()`), advancing the stream by `n`.
The script's two consecutive `np.random.normal` calls therefore consume
`z 0, …, z (n-1)` and `z n, …, z (2n-1)`.

`np.percentile` is called with its default method, linear interpolation
between order statistics: sort, take fractional position `p/100 * (n-1)`,
and interpolate between the neighbouring order statistics (indices clamped
to the last element).
-/

namespace RiskAnalyzer

/-- The seven sidebar inputs of `src/app.py` (lines 14-24). -/
structure JobParams where
  material_cost : ℚ
  material_uncertainty : ℚ
  machining_hours : ℚ
  labor_uncertainty : ℚ
  labor_rate : ℚ
  overhead_multiplier : ℚ
  profit_margin : ℚ
deriving DecidableEq, Repr

/-- `mat_std = material_cost * (material_uncertainty / 100)` (app.py line 33). -/
def mat_std (p : JobParams) : ℚ :=
  p.material_cost * (p.material_uncertainty / 100)

/-- `labor_std = machining_hours * (labor_uncertainty / 100)` (app.py line 37). -/
def labor_std (p : JobParams) : ℚ :=
  p.machining_hours * (p.labor_uncertainty / 100)

/-- `np.random.normal(mean, std, n)` reading the standard-normal stream `z`
from offset `start`: the i-th draw is `mean + std * z (start + i)`. -/
def normalDraw (z : ℕ → ℚ) (start : ℕ) (mean std : ℚ) (n : ℕ) : List ℚ :=
  (List.range n).map (fun i => mean + std * z (start + i))

/-- `material_total = np.random.normal(material_cost, mat_std, n)`
(app.py line 34); first call, stream offset 0. -/
def material_total (p : JobParams) (n : ℕ) (z : ℕ → ℚ) : List ℚ :=
  normalDraw z 0 p.material_cost (mat_std p) n

/-- `labor_hours_sim = np.random.normal(machining_hours, labor_std, n)`
(app.py line 38); second call, stream offset `n`. -/
def labor_hours_sim (p : JobParams) (n : ℕ) (z : ℕ → ℚ) : List ℚ :=
  normalDraw z n p.machining_hours (labor_std p) n

/-- Lines 39-43 of app.py:
`labor_cost = labor_hours_sim * labor_rate`,
`direct_costs = material_total + labor_cost`,
`total_quote = direct_costs * overhead_multiplier * profit_margin`,
all elementwise numpy array operations. -/
def total_quote (p : JobParams) (material labor_hours : List ℚ) : List ℚ :=
  (List.zipWith (· + ·) material (labor_hours.map (fun h => h * p.labor_rate))).map
    (fun c => c * p.overhead_multiplier * p.profit_margin)

/-- `arr.mean()`: arithmetic mean (sum divided by length). -/
def listMean (l : List ℚ) : ℚ :=
  l.sum / l.length

/-- Linear interpolation of a (sorted) sample list at fractional position
`pos`: between order statistics `⌊pos⌋` and `⌊pos⌋ + 1`, indices clamped to
the last element. -/
def interpAt (s : List ℚ) (pos : ℚ) : ℚ :=
  s.getD (min ⌊pos⌋.toNat (s.length - 1)) 0 +
    (pos - (⌊pos⌋.toNat : ℚ)) *
      (s.getD (min (⌊pos⌋.toNat + 1) (s.length - 1)) 0 -
        s.getD (min ⌊pos⌋.toNat (s.length - 1)) 0)

/-- `np.percentile(arr, q)` with the default linear-interpolation method:
sort, then interpolate at fractional position `q/100 * (length - 1)`. -/
def percentile (l : List ℚ) (q : ℚ) : ℚ :=
  interpAt (List.insertionSort (· ≤ ·) l) (q / 100 * ((l.length : ℚ) - 1))

/-- `n_simulations = 10000` (app.py line 26). -/
def n_simulations : ℕ := 10000

/-- Output of one simulation pass (§4.1 of the spec): the sample array and
the statistics derived from it. -/
structure SimulationResult where
  samples : List ℚ
  mean : ℚ
  p10 : ℚ
  p25 : ℚ
  p50 : ℚ
  p75 : ℚ
  p90 : ℚ
deriving DecidableEq, Repr

/-- The simulation pipeline of app.py lines 33-48 and 85-86, with the trial
count `n` explicit and the standard-normal stream `z` injected. -/
def simulate (p : JobParams) (n : ℕ) (z : ℕ → ℚ) : SimulationResult :=
  let tq := total_quote p (material_total p n z) (labor_hours_sim p n z)
  { samples := tq
    mean := listMean tq
    p10 := percentile tq 10
    p25 := percentile tq 25
    p50 := percentile tq 50
    p75 := percentile tq 75
    p90 := percentile tq 90 }

/-- Everything one button press computes and displays (app.py lines 28-92):
the sample array, the headline metrics `mean_cost`, `median_cost`, `p75`,
`p90` (lines 45-48), and the detailed-statistics table column (lines 82-91),
whose first two entries are fresh `np.percentile` calls on the same
`total_quote` array and whose last three reuse the headline variables. -/
structure RunOutput where
  total_quote : List ℚ
  mean_cost : ℚ
  median_cost : ℚ
  p75 : ℚ
  p90 : ℚ
  stats_table : List ℚ
deriving DecidableEq, Repr

/-- Lines 45-91 of app.py: every displayed statistic as a function of the
single `total_quote` array computed by the run. -/
def statsOf (tq : List ℚ) : RunOutput :=
  let mean_cost := listMean tq
  let median_cost := percentile tq 50
  let p75 := percentile tq 75
  let p90 := percentile tq 90
  { total_quote := tq
    mean_cost := mean_cost
    median_cost := median_cost
    p75 := p75
    p90 := p90
    stats_table :=
      [percentile tq 10, percentile tq 25, median_cost, p75, p90] }

/-- One press of "Run Risk Analysis": app.py lines 28-92 with
`n_simulations = 10000` trials. -/
def runAnalysis (p : JobParams) (z : ℕ → ℚ) : RunOutput :=
  statsOf (total_quote p (material_total p n_simulations z)
    (labor_hours_sim p n_simulations z))

/-- Declared range and default of an input widget. -/
structure WidgetRange where
  lo : ℚ
  hi : ℚ
  default : ℚ
deriving DecidableEq, Repr

/-- `st.sidebar.number_input("Base Material Cost ($)", min_value=100,
max_value=50000, value=3500, ...)` (app.py line 14). -/
def material_cost_input : WidgetRange := ⟨100, 50000, 3500⟩

/-- `st.sidebar.slider("Material Cost Uncertainty (%)", min_value=5,
max_value=40, value=12)` (app.py line 15). -/
def material_uncertainty_input : WidgetRange := ⟨5, 40, 12⟩

/-- `st.sidebar.number_input("Machining Time (hours)", min_value=1.0,
max_value=500.0, value=35.0, ...)` (app.py line 18). -/
def machining_hours_input : WidgetRange := ⟨1, 500, 35⟩

/-- `st.sidebar.slider("Labor Time Uncertainty (%)", min_value=10,
max_value=50, value=20)` (app.py line 19). -/
def labor_uncertainty_input : WidgetRange := ⟨10, 50, 20⟩

/-- `st.sidebar.number_input("Labor Rate ($/hr)", min_value=30,
max_value=200, value=75, ...)` (app.py line 20). -/
def labor_rate_input : WidgetRange := ⟨30, 200, 75⟩

/-- `st.sidebar.number_input("Overhead Multiplier", min_value=1.0,
max_value=3.0, value=1.35, ...)` (app.py line 23). -/
def overhead_multiplier_input : WidgetRange := ⟨1, 3, 1.35⟩

/-- `st.sidebar.number_input("Profit Margin Multiplier", min_value=1.0,
max_value=2.0, value=1.15, ...)` (app.py line 24). -/
def profit_margin_input : WidgetRange := ⟨1, 2, 1.15⟩

/-! ### Basic lemmas about the pipeline -/

lemma length_normalDraw (z : ℕ → ℚ) (start : ℕ) (mean std : ℚ) (n : ℕ) :
    (normalDraw z start mean std n).length = n := by
  simp [normalDraw]

lemma getD_normalDraw {z : ℕ → ℚ} {start : ℕ} {mean std : ℚ} {n i : ℕ}
    (h : i < n) :
    (normalDraw z start mean std n).getD i 0 = mean + std * z (start + i) := by
  have hl : i < (normalDraw z start mean std n).length := by
    rw [length_normalDraw]; exact h
  rw [List.getD_eq_getElem _ _ hl]
  simp [normalDraw]

lemma length_material_total (p : JobParams) (n : ℕ) (z : ℕ → ℚ) :
    (material_total p n z).length = n :=
  length_normalDraw ..

lemma length_labor_hours_sim (p : JobParams) (n : ℕ) (z : ℕ → ℚ) :
    (labor_hours_sim p n z).length = n :=
  length_normalDraw ..

lemma total_quote_eq_zipWith (p : JobParams) (material labor_hours : List ℚ) :
    total_quote p material labor_hours =
      List.zipWith
        (fun a b => (a + b * p.labor_rate) * p.overhead_multiplier * p.profit_margin)
        material labor_hours := by
  simp [total_quote, List.zipWith_map_right, List.map_zipWith]

lemma length_total_quote (p : JobParams) (material labor_hours : List ℚ) :
    (total_quote p material labor_hours).length =
      min material.length labor_hours.length := by
  rw [total_quote_eq_zipWith, List.length_zipWith]

lemma getD_total_quote {p : JobParams} {material labor_hours : List ℚ} {i : ℕ}
    (him : i < material.length) (hil : i < labor_hours.length) :
    (total_quote p material labor_hours).getD i 0 =
      (material.getD i 0 + labor_hours.getD i 0 * p.labor_rate) *
        p.overhead_multiplier * p.profit_margin := by
  rw [total_quote_eq_zipWith]
  have hz : i < (List.zipWith
      (fun a b => (a + b * p.labor_rate) * p.overhead_multiplier * p.profit_margin)
      material labor_hours).length := by
    rw [List.length_zipWith]; exact lt_min him hil
  rw [List.getD_eq_getElem _ _ hz, List.getD_eq_getElem _ _ him,
    List.getD_eq_getElem _ _ hil]
  exact List.getElem_zipWith

lemma simulate_samples (p : JobParams) (n : ℕ) (z : ℕ → ℚ) :
    (simulate p n z).samples =
      total_quote p (material_total p n z) (labor_hours_sim p n z) :=
  rfl

lemma length_simulate_samples (p : JobParams) (n : ℕ) (z : ℕ → ℚ) :
    (simulate p n z).samples.length = n := by
  rw [simulate_samples, length_total_quote, length_material_total,
    length_labor_hours_sim, min_self]

lemma runAnalysis_def (p : JobParams) (z : ℕ → ℚ) :
    runAnalysis p z =
      statsOf (total_quote p (material_total p n_simulations z)
        (labor_hours_sim p n_simulations z)) := by
  unfold runAnalysis
  rfl

lemma statsOf_total (tq : List ℚ) : (statsOf tq).total_quote = tq := rfl

lemma statsOf_mean (tq : List ℚ) : (statsOf tq).mean_cost = listMean tq := rfl

lemma statsOf_median (tq : List ℚ) :
    (statsOf tq).median_cost = percentile tq 50 := rfl

lemma statsOf_p75 (tq : List ℚ) : (statsOf tq).p75 = percentile tq 75 := rfl

lemma statsOf_p90 (tq : List ℚ) : (statsOf tq).p90 = percentile tq 90 := rfl

lemma statsOf_table (tq : List ℚ) :
    (statsOf tq).stats_table =
      [percentile tq 10, percentile tq 25, percentile tq 50,
        percentile tq 75, percentile tq 90] := rfl

lemma runAnalysis_total_quote (p : JobParams) (z : ℕ → ℚ) :
    (runAnalysis p z).total_quote =
      total_quote p (material_total p n_simulations z)
        (labor_hours_sim p n_simulations z) := by
  rw [runAnalysis_def, statsOf_total]

lemma length_run_total (p : JobParams) (z : ℕ → ℚ) :
    (runAnalysis p z).total_quote.length = n_simulations := by
  rw [runAnalysis_total_quote, length_total_quote, length_material_total,
    length_labor_hours_sim, min_self]

/-! ### Percentile interpolation lemmas -/

lemma sorted_getD_mono {s : List ℚ} (hs : List.Sorted (· ≤ ·) s) {i j : ℕ}
    (hij : i ≤ j) (hj : j < s.length) : s.getD i 0 ≤ s.getD j 0 := by
  have hi : i < s.length := lt_of_le_of_lt hij hj
  rw [List.getD_eq_getElem _ _ hi, List.getD_eq_getElem _ _ hj]
  have := hs.rel_get_of_le (a := ⟨i, hi⟩) (b := ⟨j, hj⟩) (Fin.mk_le_mk.mpr hij)
  simpa using this

lemma interpAt_mono {s : List ℚ} (hs : List.Sorted (· ≤ ·) s) (hne : s ≠ [])
    {a b : ℚ} (ha : 0 ≤ a) (hab : a ≤ b) : interpAt s a ≤ interpAt s b := by
  have hn : 0 < s.length := List.length_pos.mpr hne
  have hfa0 : (0 : ℤ) ≤ ⌊a⌋ := Int.floor_nonneg.mpr ha
  have hfb0 : (0 : ℤ) ≤ ⌊b⌋ := Int.floor_nonneg.mpr (ha.trans hab)
  have hca : ((⌊a⌋.toNat : ℕ) : ℚ) = ((⌊a⌋ : ℤ) : ℚ) := by
    rw [← Int.cast_natCast, Int.toNat_of_nonneg hfa0]
  have hcb : ((⌊b⌋.toNat : ℕ) : ℚ) = ((⌊b⌋ : ℤ) : ℚ) := by
    rw [← Int.cast_natCast, Int.toNat_of_nonneg hfb0]
  have hiab : ⌊a⌋.toNat ≤ ⌊b⌋.toNat := Int.toNat_le_toNat (Int.floor_le_floor hab)
  have hfra1 : a - ((⌊a⌋.toNat : ℕ) : ℚ) < 1 := by
    rw [hca]; have := Int.lt_floor_add_one a; linarith
  have hfrb0 : 0 ≤ b - ((⌊b⌋.toNat : ℕ) : ℚ) := by
    rw [hcb]; have := Int.floor_le b; linarith
  have hidx : ∀ i j : ℕ, i ≤ j →
      s.getD (min i (s.length - 1)) 0 ≤ s.getD (min j (s.length - 1)) 0 := by
    intro i j hij
    exact sorted_getD_mono hs (min_le_min hij le_rfl) (by omega)
  rcases eq_or_lt_of_le hiab with heq | hlt
  · unfold interpAt
    rw [← heq]
    have hd : 0 ≤ s.getD (min (⌊a⌋.toNat + 1) (s.length - 1)) 0 -
        s.getD (min ⌊a⌋.toNat (s.length - 1)) 0 :=
      sub_nonneg.mpr (hidx _ _ (Nat.le_succ _))
    exact add_le_add_left (mul_le_mul_of_nonneg_right (sub_le_sub_right hab _) hd) _
  · have h1 : interpAt s a ≤ s.getD (min (⌊a⌋.toNat + 1) (s.length - 1)) 0 := by
      unfold interpAt
      have hlohi := hidx ⌊a⌋.toNat (⌊a⌋.toNat + 1) (Nat.le_succ _)
      nlinarith [mul_nonneg (sub_nonneg.mpr hfra1.le) (sub_nonneg.mpr hlohi)]
    have h2 : s.getD (min ⌊b⌋.toNat (s.length - 1)) 0 ≤ interpAt s b := by
      unfold interpAt
      have hlohi := hidx ⌊b⌋.toNat (⌊b⌋.toNat + 1) (Nat.le_succ _)
      nlinarith [mul_nonneg hfrb0 (sub_nonneg.mpr hlohi)]
    have h3 : s.getD (min (⌊a⌋.toNat + 1) (s.length - 1)) 0 ≤
        s.getD (min ⌊b⌋.toNat (s.length - 1)) 0 := hidx _ _ hlt
    linarith

lemma insertionSort_ne_nil {l : List ℚ} (hne : l ≠ []) :
    List.insertionSort (· ≤ ·) l ≠ [] := by
  intro hnil
  apply hne
  have hlen := List.length_insertionSort (· ≤ ·) l
  rw [hnil] at hlen
  exact List.eq_nil_of_length_eq_zero hlen.symm

lemma percentile_mono {l : List ℚ} (hne : l ≠ []) {a b : ℚ} (ha : 0 ≤ a)
    (hab : a ≤ b) : percentile l a ≤ percentile l b := by
  unfold percentile
  have hlen1 : (1 : ℚ) ≤ (l.length : ℚ) := by
    have : 1 ≤ l.length := List.length_pos.mpr hne
    exact_mod_cast this
  apply interpAt_mono (List.sorted_insertionSort (· ≤ ·) l)
    (insertionSort_ne_nil hne)
  · exact mul_nonneg (div_nonneg ha (by norm_num)) (by linarith)
  · exact mul_le_mul_of_nonneg_right
      ((div_le_div_iff_of_pos_right (by norm_num)).mpr hab) (by linarith)

/-! ### Claim theorems -/

/-- C1: for every parameter set and every index `i` into the drawn arrays,
the i-th returned total-quote sample equals
`(materialSamples[i] + laborHourSamples[i] * laborRate) * overheadMultiplier
* profitMarginMultiplier`: the deterministic pricing formula applied
elementwise to the pair of draw arrays of the same trial. -/
theorem simulate_samples_elementwise (p : JobParams) (n : ℕ) (z : ℕ → ℚ)
    (i : ℕ) (hi : i < n) :
    (simulate p n z).samples.getD i 0 =
      ((material_total p n z).getD i 0 +
          (labor_hours_sim p n z).getD i 0 * p.labor_rate) *
        p.overhead_multiplier * p.profit_margin := by
  rw [simulate_samples]
  exact getD_total_quote (by rw [length_material_total]; exact hi)
    (by rw [length_labor_hours_sim]; exact hi)

/-- Witness for C1 at a concrete input: two trials, index 1. -/
theorem simulate_samples_elementwise_witness :
    1 < 2 ∧
      (simulate ⟨3500, 12, 35, 20, 75, 1.35, 1.15⟩ 2
          (fun i => (i : ℚ))).samples.getD 1 0 =
        ((material_total ⟨3500, 12, 35, 20, 75, 1.35, 1.15⟩ 2
              (fun i => (i : ℚ))).getD 1 0 +
            (labor_hours_sim ⟨3500, 12, 35, 20, 75, 1.35, 1.15⟩ 2
                (fun i => (i : ℚ))).getD 1 0 * 75) * 1.35 * 1.15 :=
  ⟨by decide,
    simulate_samples_elementwise ⟨3500, 12, 35, 20, 75, 1.35, 1.15⟩ 2
      (fun i => (i : ℚ)) 1 (by decide)⟩

/-- C2: the i-th material draw is centered at `materialCost` with scale
`materialCost * materialUncertaintyPct / 100`, and the i-th labor-hour draw
is centered at `machiningHours` with scale
`machiningHours * laborUncertaintyPct / 100`, each applied to a fresh
standard-normal variate of the stream. -/
theorem draw_std_formula (p : JobParams) (n : ℕ) (z : ℕ → ℚ) (i : ℕ)
    (hi : i < n) :
    (material_total p n z).getD i 0 =
        p.material_cost + p.material_cost * (p.material_uncertainty / 100) * z i ∧
      (labor_hours_sim p n z).getD i 0 =
        p.machining_hours +
          p.machining_hours * (p.labor_uncertainty / 100) * z (n + i) := by
  constructor
  · have := @getD_normalDraw z 0 p.material_cost (mat_std p) n i hi
    simpa [material_total, mat_std] using this
  · have := @getD_normalDraw z n p.machining_hours (labor_std p) n i hi
    simpa [labor_hours_sim, labor_std] using this

/-- Witness for C2 at a concrete input. -/
theorem draw_std_formula_witness :
    0 < 3 ∧
      (material_total ⟨3500, 12, 35, 20, 75, 1.35, 1.15⟩ 3
          (fun i => (i : ℚ) + 1)).getD 0 0 =
        3500 + 3500 * (12 / 100) * ((0 : ℚ) + 1) ∧
      (labor_hours_sim ⟨3500, 12, 35, 20, 75, 1.35, 1.15⟩ 3
          (fun i => (i : ℚ) + 1)).getD 0 0 =
        35 + 35 * (20 / 100) * ((3 : ℚ) + 1) :=
  ⟨by decide,
    (draw_std_formula ⟨3500, 12, 35, 20, 75, 1.35, 1.15⟩ 3
      (fun i => (i : ℚ) + 1) 0 (by decide)).1,
    (draw_std_formula ⟨3500, 12, 35, 20, 75, 1.35, 1.15⟩ 3
      (fun i => (i : ℚ) + 1) 0 (by decide)).2⟩

/-- C5: the trial count is the fixed configuration constant 10000, and every
run draws and returns exactly that many total-cost samples. -/
theorem run_sample_count :
    n_simulations = 10000 ∧
      ∀ (p : JobParams) (z : ℕ → ℚ),
        (runAnalysis p z).total_quote.length = n_simulations :=
  ⟨rfl, fun p z => length_run_total p z⟩

/-- C7: the simulation is deterministic in the injected randomness — it
reads only the first `2 * n` standard-normal variates, and two invocations
whose streams agree there return identical results. -/
theorem simulate_deterministic (p : JobParams) (n : ℕ) (z₁ z₂ : ℕ → ℚ)
    (h : ∀ i, i < 2 * n → z₁ i = z₂ i) :
    simulate p n z₁ = simulate p n z₂ := by
  have hm : material_total p n z₁ = material_total p n z₂ := by
    unfold material_total normalDraw
    apply List.map_congr_left
    intro i hi
    rw [List.mem_range] at hi
    rw [h (0 + i) (by omega)]
  have hl : labor_hours_sim p n z₁ = labor_hours_sim p n z₂ := by
    unfold labor_hours_sim normalDraw
    apply List.map_congr_left
    intro i hi
    rw [List.mem_range] at hi
    rw [h (n + i) (by omega)]
  simp only [simulate, hm, hl]

/-- Witness for C7 at a concrete input. -/
theorem simulate_deterministic_witness :
    (∀ i, i < 2 * 4 → (fun _ : ℕ => (0 : ℚ)) i = (fun _ : ℕ => (0 : ℚ)) i) ∧
      simulate ⟨3500, 12, 35, 20, 75, 1.35, 1.15⟩ 4 (fun _ => 0) =
        simulate ⟨3500, 12, 35, 20, 75, 1.35, 1.15⟩ 4 (fun _ => 0) :=
  ⟨fun _ _ => rfl,
    simulate_deterministic ⟨3500, 12, 35, 20, 75, 1.35, 1.15⟩ 4
      (fun _ => 0) (fun _ => 0) (fun _ _ => rfl)⟩

/-- C8: no truncation or clamping anywhere in the pipeline: whenever a draw
vector contains a negative material or labor-hour value at index `i`, the
returned sample is still exactly the linear formula at that draw, and it is
itself negative as soon as the direct cost is negative and the multipliers
are positive. -/
theorem no_truncation (p : JobParams) (material labor_hours : List ℚ)
    (i : ℕ) (him : i < material.length) (hil : i < labor_hours.length)
    (hneg : material.getD i 0 < 0 ∨ labor_hours.getD i 0 < 0) :
    (total_quote p material labor_hours).getD i 0 =
        (material.getD i 0 + labor_hours.getD i 0 * p.labor_rate) *
          p.overhead_multiplier * p.profit_margin ∧
      (material.getD i 0 + labor_hours.getD i 0 * p.labor_rate < 0 →
        0 < p.overhead_multiplier → 0 < p.profit_margin →
        (total_quote p material labor_hours).getD i 0 < 0) := by
  refine ⟨getD_total_quote him hil, fun hd ho hm => ?_⟩
  rw [getD_total_quote him hil]
  exact mul_neg_of_neg_of_pos (mul_neg_of_neg_of_pos hd ho) hm

/-- Witness for C8: a single trial whose material draw is negative yields a
negative quoted total. -/
theorem no_truncation_witness :
    ((0 : ℕ) < 1 ∧ (0 : ℕ) < 1 ∧ (([-3000] : List ℚ).getD 0 0 < 0 ∨
        (([35] : List ℚ).getD 0 0 < 0))) ∧
      (total_quote ⟨3500, 12, 35, 20, 75, 1.35, 1.15⟩ [-3000] [35]).getD 0 0 =
        (([-3000] : List ℚ).getD 0 0 + ([35] : List ℚ).getD 0 0 * 75) *
          1.35 * 1.15 ∧
      (([-3000] : List ℚ).getD 0 0 + ([35] : List ℚ).getD 0 0 * 75 < 0 →
        (0 : ℚ) < 1.35 → (0 : ℚ) < 1.15 →
        (total_quote ⟨3500, 12, 35, 20, 75, 1.35, 1.15⟩ [-3000] [35]).getD 0 0 < 0) :=
  ⟨⟨by decide, by decide, Or.inl (by norm_num)⟩,
    no_truncation ⟨3500, 12, 35, 20, 75, 1.35, 1.15⟩ [-3000] [35] 0
      (by decide) (by decide) (Or.inl (by norm_num))⟩

lemma statsOf_percentiles_mono {tq : List ℚ} (hne : tq ≠ []) :
    (statsOf tq).stats_table.getD 0 0 ≤ (statsOf tq).stats_table.getD 1 0 ∧
      (statsOf tq).stats_table.getD 1 0 ≤ (statsOf tq).median_cost ∧
      (statsOf tq).median_cost ≤ (statsOf tq).p75 ∧
      (statsOf tq).p75 ≤ (statsOf tq).p90 := by
  rw [statsOf_table, statsOf_median, statsOf_p75, statsOf_p90]
  simp only [List.getD_cons_zero, List.getD_cons_succ]
  exact ⟨percentile_mono hne (by norm_num) (by norm_num),
    percentile_mono hne (by norm_num) (by norm_num),
    percentile_mono hne (by norm_num) (by norm_num),
    percentile_mono hne (by norm_num) (by norm_num)⟩

lemma run_total_ne_nil (p : JobParams) (z : ℕ → ℚ) :
    total_quote p (material_total p n_simulations z)
      (labor_hours_sim p n_simulations z) ≠ [] := by
  intro hnil
  have hl := congrArg List.length hnil
  rw [length_total_quote, length_material_total, length_labor_hours_sim,
    min_self] at hl
  simp [n_simulations] at hl

/-- C4: for every run, the five reported percentile statistics — the table's
10th and 25th entries, the median, p75 and p90 — are monotonically
non-decreasing: p10 ≤ p25 ≤ p50 ≤ p75 ≤ p90. -/
theorem percentiles_monotone (p : JobParams) (z : ℕ → ℚ) :
    (runAnalysis p z).stats_table.getD 0 0 ≤
        (runAnalysis p z).stats_table.getD 1 0 ∧
      (runAnalysis p z).stats_table.getD 1 0 ≤ (runAnalysis p z).median_cost ∧
      (runAnalysis p z).median_cost ≤ (runAnalysis p z).p75 ∧
      (runAnalysis p z).p75 ≤ (runAnalysis p z).p90 := by
  rw [runAnalysis_def p z]
  exact statsOf_percentiles_mono (run_total_ne_nil p z)

lemma percentile_interp (l : List ℚ) (q : ℚ) (i : ℕ)
    (hlen : l.length = 10000) (hfloor : ⌊q / 100 * 9999⌋ = (i : ℤ))
    (hi : i + 1 ≤ 9999) :
    percentile l q =
      (List.insertionSort (· ≤ ·) l).getD i 0 +
        (q / 100 * 9999 - (i : ℚ)) *
          ((List.insertionSort (· ≤ ·) l).getD (i + 1) 0 -
            (List.insertionSort (· ≤ ·) l).getD i 0) := by
  have hpos : q / 100 * ((l.length : ℚ) - 1) = q / 100 * 9999 := by
    rw [hlen]; norm_num
  have hslen : (List.insertionSort (· ≤ ·) l).length = 10000 := by
    rw [List.length_insertionSort, hlen]
  have hmin1 : min ⌊q / 100 * 9999⌋.toNat (10000 - 1) = i := by
    rw [hfloor, Int.toNat_natCast]
    omega
  have hmin2 : min (⌊q / 100 * 9999⌋.toNat + 1) (10000 - 1) = i + 1 := by
    rw [hfloor, Int.toNat_natCast]
    omega
  have hcast : ((⌊q / 100 * 9999⌋.toNat : ℕ) : ℚ) = (i : ℚ) := by
    rw [hfloor, Int.toNat_natCast]
  unfold percentile interpAt
  rw [hpos, hslen, hmin1, hmin2, hcast]

lemma statsOf_table_interp {tq : List ℚ} (hlen : tq.length = 10000) :
    (statsOf tq).stats_table =
      [(List.insertionSort (· ≤ ·) tq).getD 999 0 +
          ((10 : ℚ) / 100 * 9999 - 999) *
            ((List.insertionSort (· ≤ ·) tq).getD 1000 0 -
              (List.insertionSort (· ≤ ·) tq).getD 999 0),
        (List.insertionSort (· ≤ ·) tq).getD 2499 0 +
          ((25 : ℚ) / 100 * 9999 - 2499) *
            ((List.insertionSort (· ≤ ·) tq).getD 2500 0 -
              (List.insertionSort (· ≤ ·) tq).getD 2499 0),
        (List.insertionSort (· ≤ ·) tq).getD 4999 0 +
          ((50 : ℚ) / 100 * 9999 - 4999) *
            ((List.insertionSort (· ≤ ·) tq).getD 5000 0 -
              (List.insertionSort (· ≤ ·) tq).getD 4999 0),
        (List.insertionSort (· ≤ ·) tq).getD 7499 0 +
          ((75 : ℚ) / 100 * 9999 - 7499) *
            ((List.insertionSort (· ≤ ·) tq).getD 7500 0 -
              (List.insertionSort (· ≤ ·) tq).getD 7499 0),
        (List.insertionSort (· ≤ ·) tq).getD 8999 0 +
          ((90 : ℚ) / 100 * 9999 - 8999) *
            ((List.insertionSort (· ≤ ·) tq).getD 9000 0 -
              (List.insertionSort (· ≤ ·) tq).getD 8999 0)] := by
  rw [statsOf_table,
    percentile_interp tq 10 999 hlen
      (by rw [Int.floor_eq_iff]; constructor <;> norm_num) (by norm_num),
    percentile_interp tq 25 2499 hlen
      (by rw [Int.floor_eq_iff]; constructor <;> norm_num) (by norm_num),
    percentile_interp tq 50 4999 hlen
      (by rw [Int.floor_eq_iff]; constructor <;> norm_num) (by norm_num),
    percentile_interp tq 75 7499 hlen
      (by rw [Int.floor_eq_iff]; constructor <;> norm_num) (by norm_num),
    percentile_interp tq 90 8999 hlen
      (by rw [Int.floor_eq_iff]; constructor <;> norm_num) (by norm_num)]
  norm_num

/-- C3: the reported percentiles 10/25/50/75/90 of a run are computed from
the sample array by linear interpolation between order statistics — sort the
n = 10000 samples and interpolate at fractional position `q/100 * (n-1)`:
the table entries are exactly `s[⌊pos⌋] + (pos - ⌊pos⌋) * (s[⌊pos⌋+1] -
s[⌊pos⌋])` for `pos = q/100 * 9999` at q = 10, 25, 50, 75, 90. -/
theorem stats_table_linear_interpolation (p : JobParams) (z : ℕ → ℚ) :
    (runAnalysis p z).stats_table =
      [(List.insertionSort (· ≤ ·) (runAnalysis p z).total_quote).getD 999 0 +
          ((10 : ℚ) / 100 * 9999 - 999) *
            ((List.insertionSort (· ≤ ·) (runAnalysis p z).total_quote).getD 1000 0 -
              (List.insertionSort (· ≤ ·) (runAnalysis p z).total_quote).getD 999 0),
        (List.insertionSort (· ≤ ·) (runAnalysis p z).total_quote).getD 2499 0 +
          ((25 : ℚ) / 100 * 9999 - 2499) *
            ((List.insertionSort (· ≤ ·) (runAnalysis p z).total_quote).getD 2500 0 -
              (List.insertionSort (· ≤ ·) (runAnalysis p z).total_quote).getD 2499 0),
        (List.insertionSort (· ≤ ·) (runAnalysis p z).total_quote).getD 4999 0 +
          ((50 : ℚ) / 100 * 9999 - 4999) *
            ((List.insertionSort (· ≤ ·) (runAnalysis p z).total_quote).getD 5000 0 -
              (List.insertionSort (· ≤ ·) (runAnalysis p z).total_quote).getD 4999 0),
        (List.insertionSort (· ≤ ·) (runAnalysis p z).total_quote).getD 7499 0 +
          ((75 : ℚ) / 100 * 9999 - 7499) *
            ((List.insertionSort (· ≤ ·) (runAnalysis p z).total_quote).getD 7500 0 -
              (List.insertionSort (· ≤ ·) (runAnalysis p z).total_quote).getD 7499 0),
        (List.insertionSort (· ≤ ·) (runAnalysis p z).total_quote).getD 8999 0 +
          ((90 : ℚ) / 100 * 9999 - 8999) *
            ((List.insertionSort (· ≤ ·) (runAnalysis p z).total_quote).getD 9000 0 -
              (List.insertionSort (· ≤ ·) (runAnalysis p z).total_quote).getD 8999 0)] := by
  rw [runAnalysis_def p z, statsOf_total]
  exact statsOf_table_interp (by
    rw [length_total_quote, length_material_total, length_labor_hours_sim,
      min_self]
    rfl)

/-- C6 counterexample: with `materialCost = 0` — below the declared minimum
of 100 — the simulation code raises no `InvalidParameter` failure; it draws
and returns a full sample array (here 3 trials, each sample
`(0 + 35·75)·1.35·1.15 = 65205/16`). -/
theorem no_engine_validation_counterexample :
    (simulate ⟨0, 12, 35, 20, 75, 1.35, 1.15⟩ 3 (fun _ => 0)).samples.length = 3 ∧
      (simulate ⟨0, 12, 35, 20, 75, 1.35, 1.15⟩ 3
          (fun _ => 0)).samples.getD 0 0 = 65205 / 16 := by
  constructor
  · exact length_simulate_samples _ 3 _
  · rw [simulate_samples,
      getD_total_quote (by rw [length_material_total]; norm_num)
        (by rw [length_labor_hours_sim]; norm_num)]
    simp only [material_total, labor_hours_sim]
    rw [getD_normalDraw (by norm_num), getD_normalDraw (by norm_num)]
    norm_num [mat_std, labor_std]

/-- C6 amended: the declared ranges live on the input widgets, whose bounds
match the spec's table, and only there; the simulation itself performs no
validation and returns a full sample array for every parameter set, in
range or not. -/
theorem widget_bounds_no_engine_validation :
    (material_cost_input.lo = 100 ∧ material_cost_input.hi = 50000) ∧
      (material_uncertainty_input.lo = 5 ∧ material_uncertainty_input.hi = 40) ∧
      (machining_hours_input.lo = 1 ∧ machining_hours_input.hi = 500) ∧
      (labor_uncertainty_input.lo = 10 ∧ labor_uncertainty_input.hi = 50) ∧
      (labor_rate_input.lo = 30 ∧ labor_rate_input.hi = 200) ∧
      (overhead_multiplier_input.lo = 1 ∧ overhead_multiplier_input.hi = 3) ∧
      (profit_margin_input.lo = 1 ∧ profit_margin_input.hi = 2) ∧
      ∀ (p : JobParams) (n : ℕ) (z : ℕ → ℚ),
        (simulate p n z).samples.length = n :=
  ⟨⟨rfl, rfl⟩, ⟨rfl, rfl⟩, ⟨rfl, rfl⟩, ⟨rfl, rfl⟩, ⟨rfl, rfl⟩, ⟨rfl, rfl⟩,
    ⟨rfl, rfl⟩, fun p n z => length_simulate_samples p n z⟩

/-- C9: every displayed statistic of a run — headline mean, median, p75, p90
and the five-entry detailed-statistics table, including the p10 and p25
computed later for the table — is a function of the run's one sample array:
runs with the same sample array display identical outputs, and each entry is
the named statistic of that array. -/
theorem single_sample_array (p : JobParams) (z₁ z₂ : ℕ → ℚ)
    (h : (runAnalysis p z₁).total_quote = (runAnalysis p z₂).total_quote) :
    runAnalysis p z₁ = runAnalysis p z₂ ∧
      (runAnalysis p z₁).stats_table =
        [percentile (runAnalysis p z₁).total_quote 10,
          percentile (runAnalysis p z₁).total_quote 25,
          percentile (runAnalysis p z₁).total_quote 50,
          percentile (runAnalysis p z₁).total_quote 75,
          percentile (runAnalysis p z₁).total_quote 90] ∧
      (runAnalysis p z₁).mean_cost = listMean (runAnalysis p z₁).total_quote ∧
      (runAnalysis p z₁).median_cost = percentile (runAnalysis p z₁).total_quote 50 ∧
      (runAnalysis p z₁).p75 = percentile (runAnalysis p z₁).total_quote 75 ∧
      (runAnalysis p z₁).p90 = percentile (runAnalysis p z₁).total_quote 90 := by
  rw [runAnalysis_def p z₁, runAnalysis_def p z₂] at h ⊢
  rw [statsOf_total, statsOf_total] at h
  rw [h]
  refine ⟨rfl, ?_, ?_, ?_, ?_, ?_⟩ <;>
    simp only [statsOf_table, statsOf_total, statsOf_mean, statsOf_median,
      statsOf_p75, statsOf_p90]

/-- Witness for C9 at a concrete input. -/
theorem single_sample_array_witness :
    (runAnalysis ⟨3500, 12, 35, 20, 75, 1.35, 1.15⟩ (fun _ => 0)).total_quote =
        (runAnalysis ⟨3500, 12, 35, 20, 75, 1.35, 1.15⟩ (fun _ => 0)).total_quote ∧
      runAnalysis ⟨3500, 12, 35, 20, 75, 1.35, 1.15⟩ (fun _ => 0) =
        runAnalysis ⟨3500, 12, 35, 20, 75, 1.35, 1.15⟩ (fun _ => 0) :=
  ⟨rfl,
    (single_sample_array ⟨3500, 12, 35, 20, 75, 1.35, 1.15⟩
      (fun _ => 0) (fun _ => 0) rfl).1⟩

lemma sum_map_scale (k : ℚ) (l : List ℚ) :
    (l.map fun x => k * x).sum = k * l.sum := by
  induction l with
  | nil => simp
  | cons a t ih => simp [ih, mul_add]

lemma listMean_map_scale (k : ℚ) (l : List ℚ) :
    listMean (l.map fun x => k * x) = k * listMean l := by
  unfold listMean
  rw [sum_map_scale, List.length_map, mul_div_assoc]

lemma insertionSort_map_scale (k : ℚ) (hk : 0 ≤ k) (l : List ℚ) :
    List.insertionSort (· ≤ ·) (l.map fun x => k * x) =
      (List.insertionSort (· ≤ ·) l).map fun x => k * x := by
  apply List.eq_of_perm_of_sorted (r := (· ≤ ·))
  · exact (List.perm_insertionSort _ _).trans
      (((List.perm_insertionSort (· ≤ ·) l).map _).symm)
  · exact List.sorted_insertionSort _ _
  · exact List.Pairwise.map _
      (fun a b hab => mul_le_mul_of_nonneg_left hab hk)
      (List.sorted_insertionSort (· ≤ ·) l)

lemma getD_map_scale (k : ℚ) (s : List ℚ) (j : ℕ) :
    (s.map fun x => k * x).getD j 0 = k * s.getD j 0 := by
  rw [List.getD_eq_getElem?_getD, List.getD_eq_getElem?_getD,
    List.getElem?_map]
  cases h : s[j]? <;> simp

lemma percentile_map_scale (k : ℚ) (hk : 0 ≤ k) (l : List ℚ) (q : ℚ) :
    percentile (l.map fun x => k * x) q = k * percentile l q := by
  unfold percentile interpAt
  rw [insertionSort_map_scale k hk, List.length_map, List.length_map,
    getD_map_scale, getD_map_scale]
  ring

/-- C10: for a fixed vector of underlying draws, every returned sample and
every derived statistic scales linearly in the product
`overheadMultiplier * profitMarginMultiplier`: multiplying that product by a
factor `k ≥ 0` (the labor rate unchanged) multiplies each sample, the mean,
and each percentile by `k`. -/
theorem scaling_in_multiplier_product (p q : JobParams)
    (material labor_hours : List ℚ) (k : ℚ) (hk : 0 ≤ k)
    (hrate : q.labor_rate = p.labor_rate)
    (hprod : q.overhead_multiplier * q.profit_margin =
      k * (p.overhead_multiplier * p.profit_margin)) :
    total_quote q material labor_hours =
        (total_quote p material labor_hours).map (fun x => k * x) ∧
      listMean (total_quote q material labor_hours) =
        k * listMean (total_quote p material labor_hours) ∧
      ∀ c : ℚ, percentile (total_quote q material labor_hours) c =
        k * percentile (total_quote p material labor_hours) c := by
  have hlist : total_quote q material labor_hours =
      (total_quote p material labor_hours).map (fun x => k * x) := by
    rw [total_quote_eq_zipWith, total_quote_eq_zipWith, List.map_zipWith]
    have hfun : (fun a b =>
        (a + b * q.labor_rate) * q.overhead_multiplier * q.profit_margin) =
        (fun a b => k *
          ((a + b * p.labor_rate) * p.overhead_multiplier * p.profit_margin)) := by
      funext a b
      rw [hrate]
      linear_combination (a + b * p.labor_rate) * hprod
    rw [hfun]
  refine ⟨hlist, ?_, fun c => ?_⟩
  · rw [hlist, listMean_map_scale]
  · rw [hlist, percentile_map_scale k hk]

/-- Witness for C10 at a concrete input: doubling the overhead multiplier
from 1.35 to 2.7 doubles the product of the two multipliers, and with draws
fixed the median doubles. -/
theorem scaling_in_multiplier_product_witness :
    (0 : ℚ) ≤ 2 ∧ (2.7 : ℚ) * 1.15 = 2 * (1.35 * 1.15) ∧
      percentile
          (total_quote ⟨3500, 12, 35, 20, 75, 2.7, 1.15⟩ [100, 200] [1, 2]) 50 =
        2 * percentile
          (total_quote ⟨3500, 12, 35, 20, 75, 1.35, 1.15⟩ [100, 200] [1, 2]) 50 :=
  ⟨by norm_num, by norm_num,
    (scaling_in_multiplier_product ⟨3500, 12, 35, 20, 75, 1.35, 1.15⟩
      ⟨3500, 12, 35, 20, 75, 2.7, 1.15⟩ [100, 200] [1, 2] 2 (by norm_num) rfl
      (show (2.7 : ℚ) * 1.15 = 2 * (1.35 * 1.15) by norm_num)).2.2 50⟩

end RiskAnalyzer
